import Mathlib

/-!
Verification of the earth-clock rendering core
(`src/wallpaper-engine/libs/earth/1.0.0/earth.js`).

The JavaScript source is shallowly embedded: pure numeric code becomes
functions over `ℚ` (or `ℝ` where the original uses transcendental
functions), typed arrays become functions `ℕ → ℚ`, JS objects with
identity semantics become structures carrying an explicit identity
field, and fallible lookups return `Option`.  Library functions that
live in files not present under `src/` (micro.js) are modelled from the
specification and marked as such in their doc comments.
-/

namespace EarthSpec

/-- Modelled from the spec: `µ.clamp` is implemented in micro.js, which is
not part of the sources (only its callers in earth.js are).  The spec
describes it as clamping a value to a fixed interval ("each clamped to a
fixed maximum per-frame degree delta"): `clamp x lo hi` confines `x` to
`[lo, hi]`. -/
def clamp (x lo hi : ℚ) : ℚ := max lo (min x hi)

/-! ### Particle trail ring buffer (earth.js lines 604-640)

`TRAIL_LEN = 16`; per particle the source keeps `trailHead` (next write
index), `trailSize` (valid sample count) and two flat `Float32Array`
buffers `trailLon`/`trailLat`.  Here one particle's slice of those
buffers is a `Trail`; the numbers are modelled as `ℚ`. -/

def TRAIL_LEN : ℕ := 16

structure Trail where
  head : ℕ
  size : ℕ
  lonBuf : ℕ → ℚ
  latBuf : ℕ → ℚ

/-- Fresh trail: typed arrays are zero-initialised. -/
def trail0 : Trail := ⟨0, 0, fun _ => 0, fun _ => 0⟩

/-- `trailClear` (earth.js 625-628): reset head and size. -/
def trailClear (t : Trail) : Trail := { t with head := 0, size := 0 }

/-- `trailPush` (earth.js 630-640): write the sample at `head`, advance
`head` modulo `TRAIL_LEN`, and grow `size` if not yet at capacity. -/
def trailPush (t : Trail) (lam φ : ℚ) : Trail where
  head := (t.head + 1) % TRAIL_LEN
  size := if t.size < TRAIL_LEN then t.size + 1 else t.size
  lonBuf := fun k => if k = t.head then lam else t.lonBuf k
  latBuf := fun k => if k = t.head then φ else t.latBuf k

/-- Push a whole list of samples, oldest first. -/
def trailPushAll (t : Trail) (xs : List (ℚ × ℚ)) : Trail :=
  xs.foldl (fun t s => trailPush t s.1 s.2) t

/-- The index visited at step `j` of the trail-drawing loop
(earth.js 796-801): `start = head - size`, `idx = start + j`, add
`TRAIL_LEN` while negative, then reduce `% TRAIL_LEN`.  That loop
computes exactly the Euclidean remainder of `head - size + j`. -/
def trailReadIdx (t : Trail) (j : ℕ) : ℕ :=
  (((t.head : ℤ) - (t.size : ℤ) + (j : ℤ)) % (TRAIL_LEN : ℤ)).toNat

/-- The sample the drawing loop reads at step `j` (earth.js 803-804). -/
def trailRead (t : Trail) (j : ℕ) : ℚ × ℚ :=
  (t.lonBuf (trailReadIdx t j), t.latBuf (trailReadIdx t j))

/-! ### Particle state and RK2 evolution (earth.js lines 602-747)

A wind sample is the JS array `[u, v, magnitude]`; the magnitude slot
may be `null` (`none`).  The grid's `interpolate` returns such an array
or `null`. -/

abbrev Wind := ℚ × ℚ × Option ℚ

abbrev Interp := ℚ → ℚ → Option Wind

def MAX_PARTICLE_AGE : ℕ := 100

/-- `MAX_AGE = MAX_PARTICLE_AGE * 6` (earth.js 686). -/
def MAX_AGE : ℕ := MAX_PARTICLE_AGE * 6

def MAX_STEP_DEG_LON : ℚ := 4

def MAX_STEP_DEG_LAT : ℚ := 5 / 2

/-- `clampLat` (earth.js 620-623): keep latitude away from the poles. -/
def clampLat (φ : ℚ) : ℚ := clamp φ (-85) 85

/-- One particle's slots of the animator's typed arrays
(earth.js 605-612): longitude, latitude, age (`Uint16Array`), the
consecutive-miss counter (`Uint8Array`) and the trail ring buffer. -/
structure Particle where
  lon : ℚ
  lat : ℚ
  age : ℕ
  miss : ℕ
  trail : Trail

/-- The random-search loop of `randomizeParticle` (earth.js 644-657):
try the candidates `picks idx, picks (idx+1), ...` while fuel remains
(the source allows 80 tries), returning the first pick at which the
grid gives a wind with non-null magnitude.  `picks` stands for the
stream of `[_.random(-180, 180), _.random(-85, 85)]` draws. -/
def randomSearch (interp : Interp) (picks : ℕ → ℚ × ℚ) : ℕ → ℕ → Option (ℚ × ℚ)
  | _, 0 => none
  | idx, fuel + 1 =>
    match interp (picks idx).1 (picks idx).2 with
    | some (_, _, some _) => some ((picks idx).1, (picks idx).2)
    | _ => randomSearch interp picks (idx + 1) fuel

/-- `randomizeParticle` (earth.js 642-664): place the particle at the
first random pick with defined wind, or at `(0, 0)` when the 80 tries
are exhausted; reset `age` to 0, clear the trail and push the new
position.  (The source does not touch the miss counter.) -/
def randomizeParticle (interp : Interp) (picks : ℕ → ℚ × ℚ) (p : Particle) : Particle :=
  match randomSearch interp picks 0 80 with
  | some (lam, φ) =>
    { p with lon := lam, lat := φ, age := 0,
             trail := trailPush (trailClear p.trail) lam φ }
  | none =>
    { p with lon := 0, lat := 0, age := 0,
             trail := trailPush (trailClear p.trail) 0 0 }

/-- The clamped longitude step (earth.js 711-713 and 729-731):
`clamp((u * velocityScale) / max(0.01, |cos φ|), ±MAX_STEP_DEG_LON)`.
`cosdeg` stands for the JS `Math.cos(x * Math.PI / 180)` (cosine of an
angle given in degrees), kept abstract because it is transcendental. -/
def stepLon (cosdeg : ℚ → ℚ) (vs u φ : ℚ) : ℚ :=
  clamp (u * vs / max (1 / 100) |cosdeg φ|) (-MAX_STEP_DEG_LON) MAX_STEP_DEG_LON

/-- The clamped latitude step (earth.js 714 and 732):
`clamp(v * velocityScale, ±MAX_STEP_DEG_LAT)`. -/
def stepLat (vs v : ℚ) : ℚ := clamp (v * vs) (-MAX_STEP_DEG_LAT) MAX_STEP_DEG_LAT

/-- The miss branch of `evolve` (earth.js 700-707 and 720-726):
`miss = (miss + 1) & 255`; respawn once it exceeds 8, otherwise skip
the particle for this frame. -/
def missStep (interp : Interp) (picks : ℕ → ℚ × ℚ) (p : Particle) : Particle :=
  let p := { p with miss := (p.miss + 1) % 256 }
  if 8 < p.miss then randomizeParticle interp picks p else p

/-- The RK2/midpoint advection part of `evolve`'s per-particle loop
(earth.js 695-745): the two wind samples with miss handling, the
clamped midpoint step, the trail push and the `Uint16` age increment.
The per-frame color-bucket bookkeeping (lines 684 and 741-743) only
affects drawing, not particle state, and is omitted. -/
def advectParticle (cosdeg : ℚ → ℚ) (interp : Interp) (picks : ℕ → ℚ × ℚ)
    (vs : ℚ) (p : Particle) : Particle :=
  match interp p.lon p.lat with
  | some (u1, v1, some _) =>
    let p := { p with miss := 0 }
    let φ1 := clampLat p.lat
    let k1lam := stepLon cosdeg vs u1 φ1
    let k1φ := stepLat vs v1
    let midlam := p.lon + k1lam / 2
    let midφ := clampLat (p.lat + k1φ / 2)
    match interp midlam midφ with
    | some (u2, v2, some _) =>
      let k2lam := stepLon cosdeg vs u2 midφ
      let k2φ := stepLat vs v2
      let newlam := p.lon + k2lam
      let newφ := clampLat (p.lat + k2φ)
      { p with lon := newlam, lat := newφ, miss := 0,
               trail := trailPush p.trail newlam newφ,
               age := (p.age + 1) % 65536 }
    | _ => missStep interp picks p
  | _ => missStep interp picks p

/-- The body of `evolve`'s per-particle loop (earth.js 690-746): the
age-triggered respawn (`if (age[i] > MAX_AGE) randomizeParticle(i)` —
with no `continue`, so the RK2 step still runs on the respawned
position), followed by the advection step. -/
def evolveParticle (cosdeg : ℚ → ℚ) (interp : Interp) (picks : ℕ → ℚ × ℚ)
    (vs : ℚ) (p : Particle) : Particle :=
  advectParticle cosdeg interp picks vs
    (if MAX_AGE < p.age then randomizeParticle interp picks p else p)

/-! ### Day/night computation (earth.js lines 939-975)

`calculateDayNightStatus` derives, from a JS `Date`, the day of year
`n` (lines 949-950) and the fractional UTC hour (line 961).  An
`Instant` carries exactly these two derived quantities; the remaining
arithmetic uses real-valued trigonometry, modelled with `Real.sin`,
`Real.cos` and `Real.arcsin`. -/

structure Instant where
  dayOfYear : ℕ
  hours : ℝ

/-- Solar declination (earth.js 954):
`23.45 * π/180 * sin(2π * (284 + n) / 365)`. -/
noncomputable def solarDecl (n : ℕ) : ℝ :=
  23.45 * Real.pi / 180 * Real.sin (2 * Real.pi * (284 + (n : ℝ)) / 365)

/-- Hour angle in radians (earth.js 962):
`((hours - 12) * 15 + λ) * π/180`. -/
noncomputable def hourAngle (hours lam : ℝ) : ℝ :=
  ((hours - 12) * 15 + lam) * Real.pi / 180

/-- `sin(elevation)` before clamping (earth.js 966-967):
`sin(lat)·sin(δ) + cos(lat)·cos(δ)·cos(h)`. -/
noncomputable def sinElevation (lam φ : ℝ) (now : Instant) : ℝ :=
  Real.sin (φ * Real.pi / 180) * Real.sin (solarDecl now.dayOfYear) +
    Real.cos (φ * Real.pi / 180) * Real.cos (solarDecl now.dayOfYear) *
      Real.cos (hourAngle now.hours lam)

/-- Solar elevation (earth.js 970-971): clamp `sin(elevation)` into
`[-1, 1]`, then apply the inverse sine. -/
noncomputable def solarElevation (lam φ : ℝ) (now : Instant) : ℝ :=
  Real.arcsin (max (-1) (min (sinElevation lam φ now) 1))

/-- `calculateDayNightStatus` (earth.js 939-975).  The function takes a
`date` argument but immediately overwrites it with the current clock
instant (`date = new Date()`, line 942); `clockNow` is that instant.
Returns the proposition "the point is in daylight": `elevation > 0`
(line 974). -/
noncomputable def calculateDayNightStatus (lam φ : ℝ) (clockNow : Instant)
    (dateArg : Instant) : Prop :=
  let date := clockNow
  let _ := dateArg
  0 < solarElevation lam φ date

/-! ### Field builder (earth.js lines 402-480 and 497-579)

The screen raster.  JS sparse arrays (`columns`, each `column`) become
partial maps `ℤ → Option _`; an unwritten index reads as `none`
(JS `undefined`).  The two distinct singleton arrays
`NULL_WIND_VECTOR` and `HOLE_VECTOR` — equal in content but compared by
object identity in `isInsideBoundary` — become distinct constructors. -/

inductive FieldVal where
  | nullWind
  | hole
  | wind (u v : ℚ) (mag : Option ℚ)
deriving DecidableEq

/-- Result of `projection.invert` at a screen point (earth.js 525-530):
`undef` when the inversion returns null/undefined, `nonfinite` when a
coordinate exists but its longitude is not finite (`isFinite(λ)`
fails), else the geographic coordinate. -/
inductive InvCoord where
  | undef
  | nonfinite
  | coord (lam φ : ℚ)

/-- The four distortion coefficients `µ.distortion` returns.  (The
implementation of `µ.distortion` is in micro.js, not in the sources;
it enters `distort` as an abstract function.) -/
structure Distortion where
  d0 : ℚ
  d1 : ℚ
  d2 : ℚ
  d3 : ℚ

/-- `distort` (earth.js 486-495): scale the wind components, then mix
them through the projection's distortion coefficients; the magnitude
slot is untouched. -/
def distort (distortion : ℚ → ℚ → ℤ → ℤ → Distortion) (lam φ : ℚ) (x y : ℤ)
    (scale : ℚ) (w : Wind) : Wind :=
  let u := w.1 * scale
  let v := w.2.1 * scale
  let d := distortion lam φ x y
  (d.d0 * u + d.d2 * v, d.d1 * u + d.d3 * v, w.2.2)

/-- The visible screen rectangle `globe.bounds(view)`. -/
structure Bounds where
  x : ℤ
  y : ℤ
  xMax : ℤ
  yMax : ℤ

/-- Everything `interpolateField` closes over (earth.js 500-518): the
mask, the projection inverse, the primary grid's `interpolate` and the
projection distortion.  The overlay-color path (lines 532-546) writes
RGBA values into the mask bitmap only; it never touches the `columns`
array that backs `field(x, y)`, so it is not modelled here. -/
structure FieldCtx where
  maskVisible : ℤ → ℤ → Bool
  invert : ℤ → ℤ → InvCoord
  interpolate : Interp
  distortion : ℚ → ℚ → ℤ → ℤ → Distortion

/-- The entry stored for one visible sample point (earth.js 524-545):
`wind = null`; if the inversion yields a finite longitude, sample the
grid and distort; finally store `wind || HOLE_VECTOR`. -/
def sampleEntry (ctx : FieldCtx) (vs : ℚ) (x y : ℤ) : FieldVal :=
  match ctx.invert x y with
  | .undef => .hole
  | .nonfinite => .hole
  | .coord lam φ =>
    match ctx.interpolate lam φ with
    | none => .hole
    | some w =>
      let w := distort ctx.distortion lam φ x y vs w
      .wind w.1 w.2.1 w.2.2

/-- Number of iterations of the row loop
`for (y = bounds.y; y <= bounds.yMax; y += 2)` (earth.js 522). -/
def colSteps (b : Bounds) : ℕ :=
  if b.yMax < b.y then 0 else (b.yMax - b.y).toNat / 2 + 1

/-- `interpolateColumn`'s row loop (earth.js 520-548), unrolled over
its iteration count: iteration `k` handles `y = bounds.y + 2k` and, when
the mask marks it visible, stores the sample entry at rows `y` and
`y + 1` (`column[y+1] = column[y] = wind || HOLE_VECTOR`). -/
def interpolateColumnAux (ctx : FieldCtx) (b : Bounds) (vs : ℚ) (x : ℤ) :
    ℕ → ℤ → Option FieldVal
  | 0, _ => none
  | k + 1, yq =>
    if ctx.maskVisible x (b.y + 2 * (k : ℤ)) then
      if yq = b.y + 2 * (k : ℤ) ∨ yq = b.y + 2 * (k : ℤ) + 1 then
        some (sampleEntry ctx vs x (b.y + 2 * (k : ℤ)))
      else interpolateColumnAux ctx b vs x k yq
    else interpolateColumnAux ctx b vs x k yq

/-- One interpolated column (earth.js 520-550). -/
def interpolateColumn (ctx : FieldCtx) (b : Bounds) (vs : ℚ) (x : ℤ) :
    ℤ → Option FieldVal :=
  interpolateColumnAux ctx b vs x (colSteps b)

/-- Number of iterations of the column loop
`while (x < bounds.xMax) { interpolateColumn(x); x += 2; }`
(earth.js 558-560), starting at `x = bounds.x`. -/
def rowSteps (b : Bounds) : ℕ :=
  if b.xMax ≤ b.x then 0 else (b.xMax - b.x - 1).toNat / 2 + 1

/-- The column loop, unrolled over its iteration count: iteration `j`
interpolates the column at `x = bounds.x + 2j` and stores it at columns
`x` and `x + 1` (`columns[x+1] = columns[x] = column`, earth.js 549). -/
def buildColumnsAux (ctx : FieldCtx) (b : Bounds) (vs : ℚ) :
    ℕ → ℤ → Option (ℤ → Option FieldVal)
  | 0, _ => none
  | j + 1, xq =>
    if xq = b.x + 2 * (j : ℤ) ∨ xq = b.x + 2 * (j : ℤ) + 1 then
      some (interpolateColumn ctx b vs (b.x + 2 * (j : ℤ)))
    else buildColumnsAux ctx b vs j xq

/-- The full `columns` array handed to `createField` (earth.js 569). -/
def buildColumns (ctx : FieldCtx) (b : Bounds) (vs : ℚ) :
    ℤ → Option (ℤ → Option FieldVal) :=
  buildColumnsAux ctx b vs (rowSteps b)

/-- The built field object (earth.js 402-480), reduced to the state the
lookups read: the `columns` array.  (`field.overlay` and
`field.randomize` do not participate in the claims' lookups.) -/
structure Field where
  columns : ℤ → Option (ℤ → Option FieldVal)

/-- `field(x, y)` (earth.js 408-411):
`column && column[y] || NULL_WIND_VECTOR`, at integer screen points. -/
def Field.lookup (f : Field) (x y : ℤ) : FieldVal :=
  match f.columns x with
  | none => .nullWind
  | some col => (col y).getD .nullWind

/-- `field.isDefined` (earth.js 416-418): `field(x, y)[2] !== null`. -/
def Field.isDefined (f : Field) (x y : ℤ) : Bool :=
  match f.lookup x y with
  | .wind _ _ (some _) => true
  | _ => false

/-- `field.isInsideBoundary` (earth.js 425-427):
`field(x, y) !== NULL_WIND_VECTOR` — an identity comparison, so a
stored `HOLE_VECTOR` counts as inside. -/
def Field.isInsideBoundary (f : Field) (x y : ℤ) : Bool :=
  match f.lookup x y with
  | .nullWind => false
  | _ => true

/-- `field.release` (earth.js 431-433): `columns = []` — afterwards
every column read is `undefined`. -/
def Field.release (f : Field) : Field :=
  { f with columns := fun _ => none }

/-- The field built by `interpolateField` once the batch loop has
covered every column (earth.js 554-569). -/
def buildField (ctx : FieldCtx) (b : Bounds) (vs : ℚ) : Field :=
  ⟨buildColumns ctx b vs⟩

/-! ### Dependency agent (spec §4.1 and §5; used at earth.js 69-85) -/

/-- Modelled from the spec: the agent engine `µ.newAgent` is implemented
in micro.js, which is not among the sources — earth.js only constructs
agents (line 69-71) and calls `submit`/`cancel`/`value` on them.  Per
the spec, each build receives its own cancellation token
(`{requested: bool}`); `submit` "cancels any in-flight build for this
agent, starts a new one"; `cancel()` "sets the token's requested flag";
a build "that ignores the flag will still complete but its result must
be discarded by the agent"; `value()` "returns the last successfully
published result, or null".

State: `flags` holds, per submitted build (index = submission order),
whether its cancellation token has been set; `published` is the last
published `(build id, result)`. -/
structure AgentState where
  flags : List Bool
  published : Option (ℕ × ℕ)
deriving DecidableEq

/-- Events in an agent's life: a new submission, an explicit `cancel()`,
or the asynchronous completion of build `i` with result `v`.  Builds
may complete in any order relative to later submissions. -/
inductive AgentEvent where
  | submit
  | cancel
  | resolve (i : ℕ) (v : ℕ)
deriving DecidableEq

/-- Modelled from the spec: set the cancellation token of the latest
(in-flight) build, if any. -/
def cancelLatest (flags : List Bool) : List Bool :=
  if flags.length = 0 then flags else flags.set (flags.length - 1) true

/-- Modelled from the spec: one step of the agent state machine.
`submit` cancels the in-flight build and appends a fresh build with an
unset token; `cancel` sets the in-flight build's token; `resolve i v`
publishes `(i, v)` only when build `i`'s token is still unset — a
completed build whose token was set resolves in silence. -/
def agentStep (s : AgentState) : AgentEvent → AgentState
  | .submit => { s with flags := cancelLatest s.flags ++ [false] }
  | .cancel => { s with flags := cancelLatest s.flags }
  | .resolve i v =>
    if s.flags.getD i true = false then { s with published := some (i, v) } else s

/-- Run an agent from the fresh state over a list of events. -/
def agentRun (es : List AgentEvent) : AgentState :=
  es.foldl agentStep ⟨[], none⟩

/-! ### Day/night mask cache (earth.js lines 1399-1420)

`getMask` caches `createMask(globe)` keyed on the identity of the
`globe` object (`cachedGlobe !== globe`); `invalidateMask` drops the
cache.  Rotation (`globe.projection.rotate(...)`, e.g. earth.js 1687)
mutates the projection of the *same* globe object.  Identities are
explicit `ℕ` tags; the mask's pixel content is determined by the
projection state captured when it was built, recorded in `builtFrom`. -/

structure GlobeObj where
  id : ℕ
  rotation : ℚ
deriving DecidableEq

structure MaskBuf where
  id : ℕ
  builtFrom : ℚ
deriving DecidableEq

structure MaskCache where
  cachedMask : Option MaskBuf
  cachedGlobe : Option ℕ
  nextId : ℕ
deriving DecidableEq

/-- `globe.projection.rotate([...])`: mutates the rotation state of the
same globe object — the identity is unchanged. -/
def GlobeObj.rotate (g : GlobeObj) (r : ℚ) : GlobeObj :=
  { g with rotation := r }

/-- `getMask` (earth.js 1407-1415): rebuild via `createMask` iff
`cachedGlobe !== globe || !cachedMask`, else return the cached buffer.
A rebuild allocates a fresh buffer identity. -/
def getMask (c : MaskCache) (g : GlobeObj) : MaskBuf × MaskCache :=
  if c.cachedGlobe ≠ some g.id ∨ c.cachedMask = none then
    let m : MaskBuf := ⟨c.nextId, g.rotation⟩
    (m, ⟨some m, some g.id, c.nextId + 1⟩)
  else
    (c.cachedMask.getD ⟨c.nextId, g.rotation⟩, c)

/-- `invalidateMask` (earth.js 1417-1420). -/
def invalidateMask (c : MaskCache) : MaskCache :=
  ⟨none, none, c.nextId⟩

/-! ## Theorems -/

/-! ### Helper lemmas about `clamp` -/

theorem clamp_mem (x lo hi : ℚ) (h : lo ≤ hi) :
    lo ≤ clamp x lo hi ∧ clamp x lo hi ≤ hi := by
  unfold clamp
  constructor
  · exact le_max_left lo _
  · exact max_le h (min_le_right x hi)

theorem abs_clamp_le (x a : ℚ) (ha : 0 ≤ a) : |clamp x (-a) a| ≤ a := by
  have h := clamp_mem x (-a) a (by linarith)
  exact abs_le.mpr ⟨h.1, h.2⟩

theorem clamp_add_abs_sub_le (φ d lo hi : ℚ) (h1 : lo ≤ φ) (h2 : φ ≤ hi) :
    |clamp (φ + d) lo hi - φ| ≤ |d| := by
  unfold clamp
  have ha : -|d| ≤ d := neg_abs_le d
  have hb : d ≤ |d| := le_abs_self d
  have hc : 0 ≤ |d| := abs_nonneg d
  rcases le_total (φ + d) hi with hd | hd
  · rcases le_total lo (φ + d) with hl | hl
    · rw [min_eq_left hd, max_eq_right hl]
      simp
    · rw [min_eq_left hd, max_eq_left hl, abs_le]
      constructor <;> linarith
  · rw [min_eq_right hd, max_eq_right (le_trans h1 h2), abs_le]
    constructor <;> linarith

/-! ### Trail ring buffer lemmas -/

theorem trailPushAll_append (t : Trail) (xs : List (ℚ × ℚ)) (s : ℚ × ℚ) :
    trailPushAll t (xs ++ [s]) = trailPush (trailPushAll t xs) s.1 s.2 := by
  simp [trailPushAll]

theorem trailPush_size_le (t : Trail) (lam φ : ℚ) (h : t.size ≤ TRAIL_LEN) :
    (trailPush t lam φ).size ≤ TRAIL_LEN := by
  simp only [trailPush]
  split <;> omega

theorem trailPushAll_size_le (xs : List (ℚ × ℚ)) (t : Trail)
    (h : t.size ≤ TRAIL_LEN) : (trailPushAll t xs).size ≤ TRAIL_LEN := by
  induction xs generalizing t with
  | nil => exact h
  | cons s xs ih =>
    show (trailPushAll (trailPush t s.1 s.2) xs).size ≤ TRAIL_LEN
    exact ih _ (trailPush_size_le t s.1 s.2 h)

theorem trailPushAll_state (xs : List (ℚ × ℚ)) :
    (trailPushAll trail0 xs).head = xs.length % TRAIL_LEN ∧
      (trailPushAll trail0 xs).size = min xs.length TRAIL_LEN := by
  induction xs using List.reverseRecOn with
  | nil => simp [trailPushAll, trail0]
  | append_singleton xs s ih =>
    rw [trailPushAll_append]
    simp only [trailPush, ih.1, ih.2, List.length_append, List.length_singleton]
    unfold TRAIL_LEN at *
    constructor
    · omega
    · split <;> omega

theorem trailPushAll_prefix (xs : List (ℚ × ℚ)) (h : xs.length ≤ TRAIL_LEN) :
    ∀ k, k < xs.length →
      ((trailPushAll trail0 xs).lonBuf k, (trailPushAll trail0 xs).latBuf k) =
        xs.getD k (0, 0) := by
  induction xs using List.reverseRecOn with
  | nil => intro k hk; simp at hk
  | append_singleton xs s ih =>
    intro k hk
    rw [trailPushAll_append]
    have hxs : xs.length ≤ TRAIL_LEN := by
      simp at h; omega
    have hhead : (trailPushAll trail0 xs).head = xs.length := by
      have := (trailPushAll_state xs).1
      unfold TRAIL_LEN at *
      simp at h
      omega
    simp only [trailPush, hhead]
    rcases Nat.lt_or_ge k xs.length with hk' | hk'
    · have hne : k ≠ xs.length := Nat.ne_of_lt hk'
      simp only [hne, if_false]
      rw [ih hxs k hk']
      rw [List.getD_append _ _ _ _ hk']
    · have hke : k = xs.length := by
        simp at hk
        omega
      subst hke
      simp only [if_true]
      rw [List.getD_append_right _ _ _ _ hk']
      simp

theorem trailReadIdx_full (t : Trail) (h : t.size = TRAIL_LEN)
    (_hh : t.head < TRAIL_LEN) (j : ℕ) (_hj : j < TRAIL_LEN) :
    trailReadIdx t j = (t.head + j) % TRAIL_LEN := by
  unfold trailReadIdx
  rw [h]
  unfold TRAIL_LEN at *
  omega

theorem trailPush_lonBuf (t : Trail) (lam φ : ℚ) (k : ℕ) :
    (trailPush t lam φ).lonBuf k = if k = t.head then lam else t.lonBuf k := rfl

theorem trailPush_latBuf (t : Trail) (lam φ : ℚ) (k : ℕ) :
    (trailPush t lam φ).latBuf k = if k = t.head then φ else t.latBuf k := rfl

theorem trailRead_push_full (t : Trail) (h : t.size = TRAIL_LEN)
    (hh : t.head < TRAIL_LEN) (lam φ : ℚ) :
    (∀ j, j < TRAIL_LEN - 1 →
      trailRead (trailPush t lam φ) j = trailRead t (j + 1)) ∧
      trailRead (trailPush t lam φ) (TRAIL_LEN - 1) = (lam, φ) := by
  have hsize : (trailPush t lam φ).size = TRAIL_LEN := by
    simp only [trailPush]
    rw [h]; simp
  have hhead : (trailPush t lam φ).head = (t.head + 1) % TRAIL_LEN := rfl
  have hheadlt : (trailPush t lam φ).head < TRAIL_LEN := by
    rw [hhead]; unfold TRAIL_LEN; omega
  constructor
  · intro j hj
    have hidx : trailReadIdx (trailPush t lam φ) j = (t.head + 1 + j) % TRAIL_LEN := by
      rw [trailReadIdx_full _ hsize hheadlt j (by unfold TRAIL_LEN at *; omega), hhead]
      unfold TRAIL_LEN
      omega
    have hidx' : trailReadIdx t (j + 1) = (t.head + 1 + j) % TRAIL_LEN := by
      rw [trailReadIdx_full t h hh (j + 1) (by unfold TRAIL_LEN at *; omega)]
      congr 1
      omega
    have hne : (t.head + 1 + j) % TRAIL_LEN ≠ t.head := by
      unfold TRAIL_LEN at *
      omega
    simp only [trailRead, hidx, hidx', trailPush_lonBuf, trailPush_latBuf]
    rw [if_neg hne, if_neg hne]
  · have hidx : trailReadIdx (trailPush t lam φ) (TRAIL_LEN - 1) = t.head := by
      rw [trailReadIdx_full _ hsize hheadlt _ (by unfold TRAIL_LEN; omega), hhead]
      unfold TRAIL_LEN at *
      omega
    simp [trailRead, hidx, trailPush_lonBuf, trailPush_latBuf]

theorem trailRead_pushAll (xs : List (ℚ × ℚ)) (h : TRAIL_LEN ≤ xs.length) :
    ∀ j, j < TRAIL_LEN →
      trailRead (trailPushAll trail0 xs) j =
        xs.getD (xs.length - TRAIL_LEN + j) (0, 0) := by
  induction xs using List.reverseRecOn with
  | nil => intro j hj; unfold TRAIL_LEN at h; simp at h
  | append_singleton xs s ih =>
    intro j hj
    have hlen : xs.length + 1 = (xs ++ [s]).length := by simp
    rcases Nat.lt_or_ge xs.length TRAIL_LEN with hn | hn
    · -- boundary case: xs.length = TRAIL_LEN - 1, the buffer fills exactly
      have hfull : (xs ++ [s]).length = TRAIL_LEN := by
        simp at h ⊢
        simp at hlen
        omega
      have hstate := trailPushAll_state (xs ++ [s])
      have hhead : (trailPushAll trail0 (xs ++ [s])).head = 0 := by
        rw [hstate.1, hfull]
        unfold TRAIL_LEN
        omega
      have hsize : (trailPushAll trail0 (xs ++ [s])).size = TRAIL_LEN := by
        rw [hstate.2, hfull]; simp
      have hidx : trailReadIdx (trailPushAll trail0 (xs ++ [s])) j = j := by
        rw [trailReadIdx_full _ hsize (by rw [hhead]; unfold TRAIL_LEN; omega) j hj, hhead]
        unfold TRAIL_LEN at *
        omega
      have hbuf := trailPushAll_prefix (xs ++ [s]) (le_of_eq hfull) j (by omega)
      simp only [trailRead, hidx]
      rw [hbuf, hfull]
      congr 1
      unfold TRAIL_LEN
      omega
    · -- the trail was already full before pushing `s`
      have hstate := trailPushAll_state xs
      have hsize : (trailPushAll trail0 xs).size = TRAIL_LEN := by
        rw [hstate.2]; omega
      have hhead : (trailPushAll trail0 xs).head < TRAIL_LEN := by
        rw [hstate.1]; unfold TRAIL_LEN; omega
      have hstep := trailRead_push_full (trailPushAll trail0 xs) hsize hhead s.1 s.2
      rw [trailPushAll_append]
      rcases Nat.lt_or_ge j (TRAIL_LEN - 1) with hj' | hj'
      · rw [hstep.1 j hj', ih hn (j + 1) (by omega)]
        rw [List.getD_append _ _ _ _ (by unfold TRAIL_LEN at *; omega)]
        congr 1
        simp
        unfold TRAIL_LEN at *
        omega
      · have hje : j = TRAIL_LEN - 1 := by omega
        subst hje
        rw [hstep.2]
        have : (xs ++ [s]).length - TRAIL_LEN + (TRAIL_LEN - 1) = xs.length := by
          simp
          unfold TRAIL_LEN at *
          omega
        rw [this]
        rw [List.getD_append_right _ _ _ _ (le_refl _)]
        simp

/-- Claim C2: pushing `K > TRAIL_LEN` samples into a particle trail
leaves exactly the last `TRAIL_LEN` samples; the trail-drawing loop's
index walk (`head - size`, normalised into the ring) visits them
oldest-first; and `trailSize` never exceeds `TRAIL_LEN`. -/
theorem trail_fifo (xs : List (ℚ × ℚ)) (hK : TRAIL_LEN < xs.length) :
    (trailPushAll trail0 xs).size = TRAIL_LEN ∧
      (∀ j, j < TRAIL_LEN →
        trailRead (trailPushAll trail0 xs) j =
          xs.getD (xs.length - TRAIL_LEN + j) (0, 0)) ∧
      (∀ ys : List (ℚ × ℚ), (trailPushAll trail0 ys).size ≤ TRAIL_LEN) := by
  refine ⟨?_, trailRead_pushAll xs (le_of_lt hK), ?_⟩
  · rw [(trailPushAll_state xs).2]
    omega
  · intro ys
    exact trailPushAll_size_le ys trail0 (by simp [trail0])

/-- Witness for C2 at a concrete 17-sample push sequence. -/
theorem trail_fifo_witness :
    TRAIL_LEN < (List.replicate 17 ((0 : ℚ), (0 : ℚ))).length ∧
      ((trailPushAll trail0 (List.replicate 17 ((0 : ℚ), (0 : ℚ)))).size = TRAIL_LEN ∧
        (∀ j, j < TRAIL_LEN →
          trailRead (trailPushAll trail0 (List.replicate 17 ((0 : ℚ), (0 : ℚ)))) j =
            (List.replicate 17 ((0 : ℚ), (0 : ℚ))).getD
              ((List.replicate 17 ((0 : ℚ), (0 : ℚ))).length - TRAIL_LEN + j) (0, 0)) ∧
        (∀ ys : List (ℚ × ℚ), (trailPushAll trail0 ys).size ≤ TRAIL_LEN)) :=
  ⟨by decide, trail_fifo _ (by decide)⟩

/-! ### Particle evolution lemmas (C3, C4, C9) -/

theorem randomSearch_spec (interp : Interp) (picks : ℕ → ℚ × ℚ) :
    ∀ fuel idx lam φ, randomSearch interp picks idx fuel = some (lam, φ) →
      (∃ k, picks k = (lam, φ)) ∧ ∃ u v m, interp lam φ = some (u, v, some m) := by
  intro fuel
  induction fuel with
  | zero =>
    intro idx lam φ h
    simp [randomSearch] at h
  | succ n ih =>
    intro idx lam φ h
    unfold randomSearch at h
    split at h
    · rename_i u v m heq
      cases h
      exact ⟨⟨idx, Prod.mk.eta⟩, u, v, m, heq⟩
    · exact ih (idx + 1) lam φ h

theorem randomizeParticle_lat (interp : Interp) (picks : ℕ → ℚ × ℚ) (p : Particle)
    (hp : ∀ k, -85 ≤ (picks k).2 ∧ (picks k).2 ≤ 85) :
    -85 ≤ (randomizeParticle interp picks p).lat ∧
      (randomizeParticle interp picks p).lat ≤ 85 := by
  unfold randomizeParticle
  split
  · rename_i lam φ heq
    obtain ⟨⟨k, hk⟩, -⟩ := randomSearch_spec interp picks 80 0 lam φ heq
    have : (picks k).2 = φ := by rw [hk]
    simp only []
    rw [← this]
    exact hp k
  · norm_num

theorem missStep_lat (interp : Interp) (picks : ℕ → ℚ × ℚ) (p : Particle)
    (hp : ∀ k, -85 ≤ (picks k).2 ∧ (picks k).2 ≤ 85)
    (h : -85 ≤ p.lat ∧ p.lat ≤ 85) :
    -85 ≤ (missStep interp picks p).lat ∧ (missStep interp picks p).lat ≤ 85 := by
  simp only [missStep]
  split
  · exact randomizeParticle_lat interp picks _ hp
  · exact h

theorem advectParticle_lat (cosdeg : ℚ → ℚ) (interp : Interp) (picks : ℕ → ℚ × ℚ)
    (vs : ℚ) (p : Particle)
    (hp : ∀ k, -85 ≤ (picks k).2 ∧ (picks k).2 ≤ 85)
    (h : -85 ≤ p.lat ∧ p.lat ≤ 85) :
    -85 ≤ (advectParticle cosdeg interp picks vs p).lat ∧
      (advectParticle cosdeg interp picks vs p).lat ≤ 85 := by
  simp only [advectParticle]
  split
  · split
    · exact clamp_mem _ (-85) 85 (by norm_num)
    · exact missStep_lat interp picks _ hp h
  · exact missStep_lat interp picks _ hp h

/-- Claim C4: particle latitude in `[-85, 85]` is an invariant of one
evolution step (including age-triggered respawn via
`randomizeParticle` and the RK2 update), given that the random picks
are drawn from `[-85, 85]` as `_.random(-85, 85)` guarantees. -/
theorem latitude_clamp_invariant (cosdeg : ℚ → ℚ) (interp : Interp)
    (picks : ℕ → ℚ × ℚ) (vs : ℚ) (p : Particle)
    (hp : ∀ k, -85 ≤ (picks k).2 ∧ (picks k).2 ≤ 85)
    (hlat : -85 ≤ p.lat ∧ p.lat ≤ 85) :
    -85 ≤ (evolveParticle cosdeg interp picks vs p).lat ∧
      (evolveParticle cosdeg interp picks vs p).lat ≤ 85 := by
  unfold evolveParticle
  apply advectParticle_lat cosdeg interp picks vs _ hp
  split
  · exact randomizeParticle_lat interp picks p hp
  · exact hlat

/-- Witness for C4 at a concrete particle and environment. -/
theorem latitude_clamp_invariant_witness :
    (∀ k : ℕ, -85 ≤ ((fun _ : ℕ => ((0 : ℚ), (0 : ℚ))) k).2 ∧
        ((fun _ : ℕ => ((0 : ℚ), (0 : ℚ))) k).2 ≤ 85) ∧
      (-85 ≤ (⟨0, 84, 0, 0, trail0⟩ : Particle).lat ∧
        (⟨0, 84, 0, 0, trail0⟩ : Particle).lat ≤ 85) ∧
      (-85 ≤ (evolveParticle (fun _ => 1) (fun _ _ => some (1, 1, some 1))
          (fun _ => (0, 0)) 1 ⟨0, 84, 0, 0, trail0⟩).lat ∧
        (evolveParticle (fun _ => 1) (fun _ _ => some (1, 1, some 1))
          (fun _ => (0, 0)) 1 ⟨0, 84, 0, 0, trail0⟩).lat ≤ 85) :=
  ⟨fun _ => by norm_num, by norm_num,
    latitude_clamp_invariant (fun _ => 1) (fun _ _ => some (1, 1, some 1))
      (fun _ => (0, 0)) 1 ⟨0, 84, 0, 0, trail0⟩
      (fun _ => by norm_num) (by norm_num)⟩

/-- Claim C3: on the RK2 advection path, one evolve step moves the
particle's longitude by exactly the clamped `k2` longitude step (hence
by at most `MAX_STEP_DEG_LON` in absolute value) and its latitude by at
most `MAX_STEP_DEG_LAT` in absolute value, for wind vectors of any
magnitude. -/
theorem rk2_step_bound (cosdeg : ℚ → ℚ) (interp : Interp) (picks : ℕ → ℚ × ℚ)
    (vs : ℚ) (p : Particle)
    (hlo : -85 ≤ p.lat) (hhi : p.lat ≤ 85) (hage : p.age ≤ MAX_AGE)
    (u1 v1 m1 : ℚ) (h1 : interp p.lon p.lat = some (u1, v1, some m1))
    (u2 v2 m2 : ℚ)
    (h2 : interp (p.lon + stepLon cosdeg vs u1 (clampLat p.lat) / 2)
        (clampLat (p.lat + stepLat vs v1 / 2)) = some (u2, v2, some m2)) :
    (evolveParticle cosdeg interp picks vs p).lon =
        p.lon + stepLon cosdeg vs u2 (clampLat (p.lat + stepLat vs v1 / 2)) ∧
      |(evolveParticle cosdeg interp picks vs p).lon - p.lon| ≤ MAX_STEP_DEG_LON ∧
      |(evolveParticle cosdeg interp picks vs p).lat - p.lat| ≤ MAX_STEP_DEG_LAT := by
  have hnage : ¬ MAX_AGE < p.age := not_lt.mpr hage
  have hres : evolveParticle cosdeg interp picks vs p =
      { p with
        lon := p.lon + stepLon cosdeg vs u2 (clampLat (p.lat + stepLat vs v1 / 2)),
        lat := clampLat (p.lat + stepLat vs v2),
        miss := 0,
        trail := trailPush p.trail
          (p.lon + stepLon cosdeg vs u2 (clampLat (p.lat + stepLat vs v1 / 2)))
          (clampLat (p.lat + stepLat vs v2)),
        age := (p.age + 1) % 65536 } := by
    unfold evolveParticle
    rw [if_neg hnage]
    unfold advectParticle
    rw [h1]
    simp only [h2]
  rw [hres]
  refine ⟨rfl, ?_, ?_⟩
  · rw [add_sub_cancel_left]
    exact abs_clamp_le _ _ (by norm_num [MAX_STEP_DEG_LON])
  · calc |clampLat (p.lat + stepLat vs v2) - p.lat| ≤ |stepLat vs v2| :=
          clamp_add_abs_sub_le p.lat (stepLat vs v2) (-85) 85 hlo hhi
    _ ≤ MAX_STEP_DEG_LAT := abs_clamp_le _ _ (by norm_num [MAX_STEP_DEG_LAT])

/-- Witness for C3 with a constant unit wind field. -/
theorem rk2_step_bound_witness :
    ((fun _ _ => some (1, 1, some 1)) (0 : ℚ) (0 : ℚ) =
        some ((1 : ℚ), (1 : ℚ), some (1 : ℚ))) ∧
      |(evolveParticle (fun _ => 1) (fun _ _ => some (1, 1, some 1))
          (fun _ => (0, 0)) 1 ⟨0, 0, 0, 0, trail0⟩).lon - 0| ≤ MAX_STEP_DEG_LON :=
  ⟨rfl,
    (rk2_step_bound (fun _ => 1) (fun _ _ => some (1, 1, some 1)) (fun _ => (0, 0)) 1
      ⟨0, 0, 0, 0, trail0⟩ (by norm_num) (by norm_num) (by norm_num [MAX_AGE, MAX_PARTICLE_AGE])
      1 1 1 rfl 1 1 1 rfl).2.1⟩

theorem trailPush_clear_read (t : Trail) (lam φ : ℚ) :
    (trailPush (trailClear t) lam φ).size = 1 ∧
      trailRead (trailPush (trailClear t) lam φ) 0 = (lam, φ) := by
  constructor
  · simp [trailPush, trailClear, TRAIL_LEN]
  · simp [trailRead, trailReadIdx, trailPush, trailClear, TRAIL_LEN]

/-- Counterexample for C9: `randomizeParticle` does not reset the
consecutive-miss counter.  With a grid that defines no wind anywhere
(so the 80 picks are exhausted) and a particle whose miss counter is 9,
the counter is still 9 after the respawn. -/
theorem randomize_miss_not_reset :
    (randomizeParticle (fun _ _ => none) (fun _ => (0, 0))
        ⟨0, 0, 5, 9, trail0⟩).miss = 9 ∧
      ¬ (randomizeParticle (fun _ _ => none) (fun _ => (0, 0))
          ⟨0, 0, 5, 9, trail0⟩).miss = 0 := by
  constructor <;> decide

/-- Claim C9 as amended: after `randomizeParticle` the particle's age is
0, its miss counter is *unchanged* (the source never writes `miss[i]`
there), its trail holds exactly one sample — the new position — and the
new position either has a grid-defined non-null wind (a successful
random pick) or is the fallback `(0, 0)` on exhaustion of the 80
picks. -/
theorem randomize_postcondition (interp : Interp) (picks : ℕ → ℚ × ℚ) (p : Particle) :
    (randomizeParticle interp picks p).age = 0 ∧
      (randomizeParticle interp picks p).miss = p.miss ∧
      (randomizeParticle interp picks p).trail.size = 1 ∧
      trailRead (randomizeParticle interp picks p).trail 0 =
        ((randomizeParticle interp picks p).lon, (randomizeParticle interp picks p).lat) ∧
      ((∃ u v m, interp (randomizeParticle interp picks p).lon
          (randomizeParticle interp picks p).lat = some (u, v, some m)) ∨
        (randomSearch interp picks 0 80 = none ∧
          (randomizeParticle interp picks p).lon = 0 ∧
          (randomizeParticle interp picks p).lat = 0)) := by
  unfold randomizeParticle
  split
  · rename_i lam φ heq
    obtain ⟨-, hw⟩ := randomSearch_spec interp picks 80 0 lam φ heq
    exact ⟨rfl, rfl, (trailPush_clear_read p.trail lam φ).1,
      (trailPush_clear_read p.trail lam φ).2, Or.inl hw⟩
  · rename_i heq
    exact ⟨rfl, rfl, (trailPush_clear_read p.trail 0 0).1,
      (trailPush_clear_read p.trail 0 0).2, Or.inr ⟨heq, rfl, rfl⟩⟩

/-! ### Day/night lemmas (C5, C6) -/

theorem solarDecl_abs_lt (n : ℕ) : |solarDecl n| < Real.pi / 2 := by
  unfold solarDecl
  have hπ := Real.pi_pos
  have hs : |Real.sin (2 * Real.pi * (284 + (n : ℝ)) / 365)| ≤ 1 :=
    Real.abs_sin_le_one _
  have hpos : (0 : ℝ) < 23.45 * Real.pi / 180 := by positivity
  rw [abs_mul, abs_of_pos hpos]
  nlinarith [abs_nonneg (Real.sin (2 * Real.pi * (284 + (n : ℝ)) / 365))]

theorem solarDecl_cos_pos (n : ℕ) : 0 < Real.cos (solarDecl n) := by
  have h := solarDecl_abs_lt n
  rw [abs_lt] at h
  exact Real.cos_pos_of_mem_Ioo ⟨by linarith [h.1], h.2⟩

theorem sinElevation_noon (n : ℕ) :
    sinElevation 0 0 ⟨n, 12⟩ = Real.cos (solarDecl n) := by
  unfold sinElevation hourAngle
  norm_num

theorem sinElevation_midnight (n : ℕ) :
    sinElevation 0 0 ⟨n, 0⟩ = -Real.cos (solarDecl n) := by
  unfold sinElevation hourAngle
  have h : ((0 : ℝ) - 12) * 15 + 0 = -180 := by norm_num
  rw [h]
  have h2 : (-180 : ℝ) * Real.pi / 180 = -Real.pi := by ring
  rw [h2]
  simp [Real.cos_neg, Real.cos_pi]

/-- Claim C5: the day/night classification is day exactly when the
solar-elevation formula (declination, hour angle, `sin(elev)` clamped
to `[-1, 1]` before `asin`) is strictly positive; elevation `≤ 0` is
night; and at lon 0, lat 0 the classification is day at 12:00 UTC and
night at 00:00 UTC on every date — in particular on an equinox. -/
theorem dayNight_sign (d : Instant) :
    (∀ lam φ : ℝ, ∀ now : Instant,
        (calculateDayNightStatus lam φ now d ↔ 0 < sinElevation lam φ now)) ∧
      (∀ lam φ : ℝ, ∀ now : Instant,
        (¬ calculateDayNightStatus lam φ now d ↔ solarElevation lam φ now ≤ 0)) ∧
      (∀ n : ℕ, calculateDayNightStatus 0 0 ⟨n, 12⟩ d) ∧
      (∀ n : ℕ, ¬ calculateDayNightStatus 0 0 ⟨n, 0⟩ d) := by
  have hiff : ∀ lam φ : ℝ, ∀ now : Instant,
      (calculateDayNightStatus lam φ now d ↔ 0 < sinElevation lam φ now) := by
    intro lam φ now
    unfold calculateDayNightStatus solarElevation
    rw [Real.arcsin_pos, lt_max_iff, lt_min_iff]
    norm_num
  refine ⟨hiff, ?_, ?_, ?_⟩
  · intro lam φ now
    unfold calculateDayNightStatus
    exact not_lt
  · intro n
    rw [hiff]
    rw [sinElevation_noon]
    exact solarDecl_cos_pos n
  · intro n
    rw [hiff]
    rw [sinElevation_midnight]
    have := solarDecl_cos_pos n
    intro hcon
    linarith

/-- Claim C6: the classification depends only on the current clock
instant; the `date` argument is overwritten on entry
(`date = new Date()`), so any two date arguments — including the grids'
validity date — give the same result at the same clock instant. -/
theorem dayNight_ignores_date_argument (lam φ : ℝ) (now d1 d2 : Instant) :
    (calculateDayNightStatus lam φ now d1 ↔ calculateDayNightStatus lam φ now d2) ∧
      (calculateDayNightStatus lam φ now d1 ↔ 0 < solarElevation lam φ now) :=
  ⟨Iff.rfl, Iff.rfl⟩

/-! ### Field builder lemmas (C7, C10) -/

theorem interpolateColumnAux_unwritten (ctx : FieldCtx) (b : Bounds) (vs : ℚ)
    (x : ℤ) : ∀ S : ℕ, ∀ y : ℤ,
    (∀ k : ℕ, k < S → ¬(y = b.y + 2 * (k : ℤ) ∨ y = b.y + 2 * (k : ℤ) + 1) ∨
      ctx.maskVisible x (b.y + 2 * (k : ℤ)) = false) →
    interpolateColumnAux ctx b vs x S y = none := by
  intro S
  induction S with
  | zero => intro y _; rfl
  | succ n ih =>
    intro y h
    simp only [interpolateColumnAux]
    rcases h n (Nat.lt_succ_self n) with hnb | hnv
    · split <;> exact ih y fun k hk => h k (Nat.lt_succ_of_lt hk)
    · rw [if_neg (by simp [hnv])]
      exact ih y fun k hk => h k (Nat.lt_succ_of_lt hk)

theorem interpolateColumnAux_written (ctx : FieldCtx) (b : Bounds) (vs : ℚ)
    (x : ℤ) : ∀ S k : ℕ, k < S →
    ctx.maskVisible x (b.y + 2 * (k : ℤ)) = true →
    ∀ yq : ℤ, (yq = b.y + 2 * (k : ℤ) ∨ yq = b.y + 2 * (k : ℤ) + 1) →
    interpolateColumnAux ctx b vs x S yq =
      some (sampleEntry ctx vs x (b.y + 2 * (k : ℤ))) := by
  intro S
  induction S with
  | zero => intro k hk; omega
  | succ n ih =>
    intro k hk hv yq hyq
    simp only [interpolateColumnAux]
    rcases Nat.lt_or_ge k n with hkn | hkn
    · have hne : ¬(yq = b.y + 2 * (n : ℤ) ∨ yq = b.y + 2 * (n : ℤ) + 1) := by
        omega
      split <;> exact ih k hkn hv yq hyq
    · have hke : k = n := by omega
      subst hke
      rw [if_pos hv, if_pos hyq]

theorem buildColumnsAux_unwritten (ctx : FieldCtx) (b : Bounds) (vs : ℚ) :
    ∀ R : ℕ, ∀ xq : ℤ,
    (∀ j : ℕ, j < R → ¬(xq = b.x + 2 * (j : ℤ) ∨ xq = b.x + 2 * (j : ℤ) + 1)) →
    buildColumnsAux ctx b vs R xq = none := by
  intro R
  induction R with
  | zero => intro xq _; rfl
  | succ n ih =>
    intro xq h
    simp only [buildColumnsAux]
    rw [if_neg (h n (Nat.lt_succ_self n))]
    exact ih xq fun j hj => h j (Nat.lt_succ_of_lt hj)

theorem buildColumnsAux_written (ctx : FieldCtx) (b : Bounds) (vs : ℚ) :
    ∀ R j : ℕ, j < R →
    ∀ xq : ℤ, (xq = b.x + 2 * (j : ℤ) ∨ xq = b.x + 2 * (j : ℤ) + 1) →
    buildColumnsAux ctx b vs R xq =
      some (interpolateColumn ctx b vs (b.x + 2 * (j : ℤ))) := by
  intro R
  induction R with
  | zero => intro j hj; omega
  | succ n ih =>
    intro j hj xq hxq
    simp only [buildColumnsAux]
    rcases Nat.lt_or_ge j n with hjn | hjn
    · rw [if_neg (by omega)]
      exact ih j hjn xq hxq
    · have hje : j = n := by omega
      subst hje
      rw [if_pos hxq]

theorem buildField_lookup (ctx : FieldCtx) (b : Bounds) (vs : ℚ) (x y : ℤ) :
    (buildField ctx b vs).lookup x y =
      match buildColumnsAux ctx b vs (rowSteps b) x with
      | none => FieldVal.nullWind
      | some col => (col y).getD FieldVal.nullWind := rfl

/-- Claim C7 as amended: at a sample point inside the built region
whose inversion yields a finite coordinate but whose primary-grid
interpolation is `null`, the field stores the hole sentinel on the
whole 2×2 block (`isDefined` false, `isInsideBoundary` true); points
never written — outside the built column/row blocks, or whose sample is
mask-invisible — read as the null wind vector with both predicates
false.  (A *visible* sample whose inverse projection is undefined is
also written, as a hole — see the counterexample.) -/
theorem field_hole_propagation (ctx : FieldCtx) (b : Bounds) (vs : ℚ) :
    (∀ j k : ℕ, ∀ lam φ : ℚ, j < rowSteps b → k < colSteps b →
      ctx.maskVisible (b.x + 2 * (j : ℤ)) (b.y + 2 * (k : ℤ)) = true →
      ctx.invert (b.x + 2 * (j : ℤ)) (b.y + 2 * (k : ℤ)) = InvCoord.coord lam φ →
      ctx.interpolate lam φ = none →
      ∀ xq yq : ℤ, (xq = b.x + 2 * (j : ℤ) ∨ xq = b.x + 2 * (j : ℤ) + 1) →
        (yq = b.y + 2 * (k : ℤ) ∨ yq = b.y + 2 * (k : ℤ) + 1) →
        (buildField ctx b vs).lookup xq yq = FieldVal.hole ∧
          (buildField ctx b vs).isDefined xq yq = false ∧
          (buildField ctx b vs).isInsideBoundary xq yq = true) ∧
      (∀ x y : ℤ,
        (∀ j : ℕ, j < rowSteps b → ¬(x = b.x + 2 * (j : ℤ) ∨ x = b.x + 2 * (j : ℤ) + 1)) →
        (buildField ctx b vs).lookup x y = FieldVal.nullWind ∧
          (buildField ctx b vs).isDefined x y = false ∧
          (buildField ctx b vs).isInsideBoundary x y = false) ∧
      (∀ x y : ℤ, ∀ j : ℕ, j < rowSteps b →
        (x = b.x + 2 * (j : ℤ) ∨ x = b.x + 2 * (j : ℤ) + 1) →
        (∀ k : ℕ, k < colSteps b →
          ¬(y = b.y + 2 * (k : ℤ) ∨ y = b.y + 2 * (k : ℤ) + 1) ∨
            ctx.maskVisible (b.x + 2 * (j : ℤ)) (b.y + 2 * (k : ℤ)) = false) →
        (buildField ctx b vs).lookup x y = FieldVal.nullWind ∧
          (buildField ctx b vs).isDefined x y = false ∧
          (buildField ctx b vs).isInsideBoundary x y = false) := by
  refine ⟨?_, ?_, ?_⟩
  · intro j k lam φ hj hk hv hinv hnull xq yq hxq hyq
    have hcols := buildColumnsAux_written ctx b vs (rowSteps b) j hj xq hxq
    have hcol := interpolateColumnAux_written ctx b vs (b.x + 2 * (j : ℤ))
      (colSteps b) k hk hv yq hyq
    have hentry : sampleEntry ctx vs (b.x + 2 * (j : ℤ)) (b.y + 2 * (k : ℤ)) =
        FieldVal.hole := by
      simp only [sampleEntry, hinv, hnull]
    have hlook : (buildField ctx b vs).lookup xq yq = FieldVal.hole := by
      rw [buildField_lookup, hcols]
      show (interpolateColumn ctx b vs (b.x + 2 * (j : ℤ)) yq).getD
        FieldVal.nullWind = FieldVal.hole
      unfold interpolateColumn
      rw [hcol, hentry]
      rfl
    refine ⟨hlook, ?_, ?_⟩
    · unfold Field.isDefined
      rw [hlook]
    · unfold Field.isInsideBoundary
      rw [hlook]
  · intro x y hx
    have hcols := buildColumnsAux_unwritten ctx b vs (rowSteps b) x hx
    have hlook : (buildField ctx b vs).lookup x y = FieldVal.nullWind := by
      rw [buildField_lookup, hcols]
    refine ⟨hlook, ?_, ?_⟩
    · unfold Field.isDefined
      rw [hlook]
    · unfold Field.isInsideBoundary
      rw [hlook]
  · intro x y j hj hx hy
    have hcols := buildColumnsAux_written ctx b vs (rowSteps b) j hj x hx
    have hcol := interpolateColumnAux_unwritten ctx b vs (b.x + 2 * (j : ℤ))
      (colSteps b) y hy
    have hlook : (buildField ctx b vs).lookup x y = FieldVal.nullWind := by
      rw [buildField_lookup, hcols]
      show (interpolateColumn ctx b vs (b.x + 2 * (j : ℤ)) y).getD
        FieldVal.nullWind = FieldVal.nullWind
      unfold interpolateColumn
      rw [hcol]
      rfl
    refine ⟨hlook, ?_, ?_⟩
    · unfold Field.isDefined
      rw [hlook]
    · unfold Field.isInsideBoundary
      rw [hlook]

/-- Witness for C7 (amended) at a concrete 2-pixel viewport. -/
theorem field_hole_propagation_witness :
    ((fun (_ : ℤ) (_ : ℤ) => InvCoord.coord 10 20) 0 0 = InvCoord.coord 10 20) ∧
      (buildField ⟨fun _ _ => true, fun _ _ => InvCoord.coord 10 20,
          fun _ _ => none, fun _ _ _ _ => ⟨0, 0, 0, 0⟩⟩ ⟨0, 0, 2, 2⟩ 0).lookup 0 0 =
        FieldVal.hole ∧
      (buildField ⟨fun _ _ => true, fun _ _ => InvCoord.coord 10 20,
          fun _ _ => none, fun _ _ _ _ => ⟨0, 0, 0, 0⟩⟩ ⟨0, 0, 2, 2⟩ 0).lookup 5 0 =
        FieldVal.nullWind :=
  ⟨rfl,
    ((field_hole_propagation ⟨fun _ _ => true, fun _ _ => InvCoord.coord 10 20,
        fun _ _ => none, fun _ _ _ _ => ⟨0, 0, 0, 0⟩⟩ ⟨0, 0, 2, 2⟩ 0).1 0 0 10 20
      (by decide) (by decide) rfl rfl rfl 0 0 (by decide) (by decide)).1,
    ((field_hole_propagation ⟨fun _ _ => true, fun _ _ => InvCoord.coord 10 20,
        fun _ _ => none, fun _ _ _ _ => ⟨0, 0, 0, 0⟩⟩ ⟨0, 0, 2, 2⟩ 0).2.1 5 0
      (by decide)).1⟩

/-- Counterexample for C7's parenthetical: a mask-visible sample point
whose inverse projection is *undefined* is written as a hole — so it is
inside the boundary and does not read as the null wind vector. -/
theorem field_undef_projection_counterexample :
    (buildField ⟨fun _ _ => true, fun _ _ => InvCoord.undef,
        fun _ _ => none, fun _ _ _ _ => ⟨0, 0, 0, 0⟩⟩ ⟨0, 0, 2, 2⟩ 0).lookup 0 0 =
      FieldVal.hole ∧
      (buildField ⟨fun _ _ => true, fun _ _ => InvCoord.undef,
          fun _ _ => none, fun _ _ _ _ => ⟨0, 0, 0, 0⟩⟩ ⟨0, 0, 2, 2⟩ 0).isInsideBoundary
        0 0 = true ∧
      ¬ (buildField ⟨fun _ _ => true, fun _ _ => InvCoord.undef,
          fun _ _ => none, fun _ _ _ _ => ⟨0, 0, 0, 0⟩⟩ ⟨0, 0, 2, 2⟩ 0).lookup 0 0 =
        FieldVal.nullWind := by
  refine ⟨?_, ?_, ?_⟩ <;> decide

/-- Claim C10: after `release()` every lookup is total and empty — the
null wind vector, `isDefined` false and `isInsideBoundary` false at
every screen point. -/
theorem field_release_total (f : Field) (x y : ℤ) :
    (f.release).lookup x y = FieldVal.nullWind ∧
      (f.release).isDefined x y = false ∧
      (f.release).isInsideBoundary x y = false :=
  ⟨rfl, rfl, rfl⟩

/-! ### Agent monotonicity (C1) -/

/-- Claim C1: if build B1 is submitted before B2 and both eventually
resolve, the published value after both resolve is B2's result — never
B1's — in either completion order; and resolving a build whose
cancellation token was set never changes the published value.
(Spec-modelled: the agent engine lives in micro.js, outside the
sources.) -/
theorem agent_monotonic (v1 v2 : ℕ) (es : List AgentEvent)
    (h : es = [AgentEvent.submit, AgentEvent.submit,
        AgentEvent.resolve 0 v1, AgentEvent.resolve 1 v2] ∨
      es = [AgentEvent.submit, AgentEvent.submit,
        AgentEvent.resolve 1 v2, AgentEvent.resolve 0 v1]) :
    (agentRun es).published = some (1, v2) ∧
      (∀ s : AgentState, ∀ i v : ℕ, s.flags.getD i true = true →
        (agentStep s (AgentEvent.resolve i v)).published = s.published) := by
  constructor
  · rcases h with h | h <;> subst h <;> rfl
  · intro s i v hflag
    have hne : ¬ (s.flags.getD i true = false) := by rw [hflag]; simp
    simp only [agentStep]
    rw [if_neg hne]

/-- Witness for C1: the two-build scenario with results 3 then 7. -/
theorem agent_monotonic_witness :
    (([AgentEvent.submit, AgentEvent.submit,
        AgentEvent.resolve 0 3, AgentEvent.resolve 1 7] : List AgentEvent) =
      [AgentEvent.submit, AgentEvent.submit,
        AgentEvent.resolve 0 3, AgentEvent.resolve 1 7] ∨
      ([AgentEvent.submit, AgentEvent.submit,
        AgentEvent.resolve 0 3, AgentEvent.resolve 1 7] : List AgentEvent) =
      [AgentEvent.submit, AgentEvent.submit,
        AgentEvent.resolve 1 7, AgentEvent.resolve 0 3]) ∧
      ((agentRun [AgentEvent.submit, AgentEvent.submit,
          AgentEvent.resolve 0 3, AgentEvent.resolve 1 7]).published = some (1, 7) ∧
        (∀ s : AgentState, ∀ i v : ℕ, s.flags.getD i true = true →
          (agentStep s (AgentEvent.resolve i v)).published = s.published)) :=
  ⟨Or.inl rfl, agent_monotonic 3 7 _ (Or.inl rfl)⟩

/-! ### Mask cache (C8) -/

/-- Counterexample for C8: the cache is keyed on Globe object identity,
so a rotation call alone does *not* cause a rebuild.  Starting from an
empty cache, build the mask for globe 0 at rotation 0, rotate that same
globe to 90, and request the mask again: the identical old buffer comes
back, still built from rotation 0. -/
theorem mask_rotation_stale_counterexample :
    (getMask (getMask ⟨none, none, 0⟩ ⟨0, 0⟩).2 (GlobeObj.rotate ⟨0, 0⟩ 90)).1 =
        (getMask ⟨none, none, 0⟩ ⟨0, 0⟩).1 ∧
      (getMask (getMask ⟨none, none, 0⟩ ⟨0, 0⟩).2
          (GlobeObj.rotate ⟨0, 0⟩ 90)).1.builtFrom = 0 ∧
      (GlobeObj.rotate ⟨0, 0⟩ 90).rotation = 90 := by
  decide

/-- Claim C8 as amended: with no intervening projection mutation or
invalidation, a second `getMask` on the same globe returns the
identical cached buffer; a rotation call alone still returns the stale
cached buffer (identity unchanged); the mask is rebuilt — a fresh
buffer capturing the current rotation — only after `invalidateMask`,
which the system triggers on globe updates, renderer redraws and a
minute timer. -/
theorem mask_cache_behavior (c : MaskCache) (g : GlobeObj) (r : ℚ)
    (hc : c.cachedMask = none) :
    getMask (getMask c g).2 g = getMask c g ∧
      (∀ rq : ℚ, getMask (getMask c g).2 (g.rotate rq) = getMask c g) ∧
      (getMask (invalidateMask (getMask c g).2) (g.rotate r)).1.builtFrom = r ∧
      (getMask (invalidateMask (getMask c g).2) (g.rotate r)).1.id ≠
        (getMask c g).1.id := by
  have h1 : getMask c g =
      (⟨c.nextId, g.rotation⟩,
        ⟨some ⟨c.nextId, g.rotation⟩, some g.id, c.nextId + 1⟩) := by
    unfold getMask
    rw [if_pos (Or.inr hc)]
  rw [h1]
  refine ⟨?_, ?_, ?_, ?_⟩
  · simp [getMask]
  · intro rq
    simp [getMask, GlobeObj.rotate]
  · simp [getMask, invalidateMask, GlobeObj.rotate]
  · simp [getMask, invalidateMask, GlobeObj.rotate]

/-- Witness for C8 (amended) at a concrete cache, globe and rotation. -/
theorem mask_cache_behavior_witness :
    ((⟨none, none, 0⟩ : MaskCache).cachedMask = none) ∧
      (getMask (getMask ⟨none, none, 0⟩ ⟨0, 0⟩).2 ⟨0, 0⟩ =
          getMask ⟨none, none, 0⟩ ⟨0, 0⟩ ∧
        (∀ rq : ℚ, getMask (getMask ⟨none, none, 0⟩ ⟨0, 0⟩).2
            (GlobeObj.rotate ⟨0, 0⟩ rq) = getMask ⟨none, none, 0⟩ ⟨0, 0⟩) ∧
        (getMask (invalidateMask (getMask ⟨none, none, 0⟩ ⟨0, 0⟩).2)
            (GlobeObj.rotate ⟨0, 0⟩ 90)).1.builtFrom = 90 ∧
        (getMask (invalidateMask (getMask ⟨none, none, 0⟩ ⟨0, 0⟩).2)
            (GlobeObj.rotate ⟨0, 0⟩ 90)).1.id ≠
          (getMask ⟨none, none, 0⟩ ⟨0, 0⟩).1.id) :=
  ⟨rfl, mask_cache_behavior ⟨none, none, 0⟩ ⟨0, 0⟩ 90 rfl⟩

end EarthSpec
